import Mathlib

/-! Shallow embedding of src/operations.py: the inventory transfer and
reconciliation engine.  Mongo documents are modelled as association lists of
string-valued fields; a collection is a list of documents keyed by their
"_id" field.  Python `int()` parsing and `str()` printing are modelled at the
character level (stored values in this system never contain whitespace or
underscores, so those `int()` extras are not modelled). -/

/-- Dynamic Python values that appear as a record field value or in the pairs
fed to `subtract_transport_values`: `None`, a string, or an int. -/
inductive PyVal where
  | vnone : PyVal
  | vstr : String → PyVal
  | vint : Int → PyVal
deriving DecidableEq

/-- The character for a decimal digit `d < 10`. -/
def digitChar (d : Nat) : Char := Char.ofNat (48 + d)

/-- Numeric value of a digit character. -/
def digitVal (c : Char) : Nat := c.toNat - 48

/-- Big-endian decimal digits of `n` (fuel-based so that it is structurally
recursive and kernel-reducible); empty for `n = 0`. -/
def natDigitsAux : Nat → Nat → List Char
  | 0, _ => []
  | _ + 1, 0 => []
  | fuel + 1, n + 1 => natDigitsAux fuel ((n + 1) / 10) ++ [digitChar ((n + 1) % 10)]

/-- Decimal representation of a natural number, as Python `str` produces it. -/
def natDigitsChars (n : Nat) : List Char :=
  if n = 0 then ['0'] else natDigitsAux n n

/-- Python `str(n)` for a natural number. -/
def natRepr (n : Nat) : String := String.mk (natDigitsChars n)

/-- Python `str(n)` for an integer. -/
def intRepr (n : Int) : String :=
  if n < 0 then String.mk ('-' :: natDigitsChars n.natAbs)
  else String.mk (natDigitsChars n.natAbs)

/-- Parse a non-empty all-digit character list as a natural number. -/
def parseDigitsList (cs : List Char) : Option Nat :=
  if cs = [] then none
  else if cs.all Char.isDigit then
    some (cs.foldl (fun a c => a * 10 + digitVal c) 0)
  else none

/-- Python `int(s)` on a character list: optional sign, then digits. -/
def pyIntChars : List Char → Option Int
  | [] => none
  | c :: rest =>
    if c = '-' then (parseDigitsList rest).map (fun n => -(n : Int))
    else if c = '+' then (parseDigitsList rest).map (fun n => (n : Int))
    else (parseDigitsList (c :: rest)).map (fun n => (n : Int))

/-- Python `int(s)` on a string. -/
def pyInt (s : String) : Option Int := pyIntChars s.data

/-- Python `s.startswith(":")`. -/
def strStartsWithColon (s : String) : Bool :=
  match s.data with
  | [] => false
  | c :: _ => c = ':'

/-- Python `s.lstrip(":")`: drop every leading colon. -/
def stripColons (s : String) : String :=
  String.mk (s.data.dropWhile (fun c => c = ':'))

/-- `clean_value` from src/operations.py lines 107-111: `None` is 0; a string
starting with the marker is stripped of leading colons and parsed with
`int()`; anything else goes through `int()` directly.  A failing parse is the
`ValueError` that `int()` raises. -/
def clean_value : PyVal → Except String Int
  | .vnone => .ok 0
  | .vstr s =>
      if strStartsWithColon s then
        match pyInt (stripColons s) with
        | some n => .ok n
        | none => .error "ValueError"
      else
        match pyInt s with
        | some n => .ok n
        | none => .error "ValueError"
  | .vint n => .ok n

/-- A Mongo document: an ordered association list of string-valued fields
(the values this system ever writes are strings). -/
abbrev Doc := List (String × String)

/-- Field lookup on a document (Python `doc[f]` / `f in doc`). -/
def dget : Doc → String → Option String
  | [], _ => none
  | (k, w) :: rest, f => if k = f then some w else dget rest f

/-- Set a field on a document: replace the existing binding in place, or
append a new one (Python dict assignment / Mongo `$set`). -/
def dset : Doc → String → String → Doc
  | [], f, v => [(f, v)]
  | (k, w) :: rest, f, v =>
      if k = f then (k, v) :: rest else (k, w) :: dset rest f v

/-- A Mongo collection: a list of documents, looked up by their "_id". -/
abbrev Coll := List Doc

/-- `collection.find_one({"_id": id})`. -/
def findOne : Coll → String → Option Doc
  | [], _ => none
  | d :: rest, id => if dget d "_id" = some id then some d else findOne rest id

/-- `collection.update_one({"_id": id}, {"$set": {f: v}})` without upsert:
modify the first matching document. -/
def updateSet : Coll → String → String → String → Coll
  | [], _, _, _ => []
  | d :: rest, id, f, v =>
      if dget d "_id" = some id then dset d f v :: rest
      else d :: updateSet rest id f v

/-- `update_one(..., upsert=True)`: update the matching document, or insert
a fresh document built from the query and the `$set` payload. -/
def upsertSet (c : Coll) (id f v : String) : Coll :=
  match findOne c id with
  | some _ => updateSet c id f v
  | none => c ++ [[("_id", id), (f, v)]]

/-- The stored value of field `f` on the document whose "_id" is `id`. -/
def fieldVal (c : Coll) (id f : String) : Option String :=
  (findOne c id).bind (fun d => dget d f)

/-- `add_transporting` (src/operations.py lines 92-105): upsert the transport
record for the route, setting the product field to `":" + str(count)`, and
return the route. -/
def add_transporting (c : Coll) (route : String) (count : Int) (clientId : String) :
    Coll × Option String :=
  (upsertSet c route clientId (String.mk (':' :: (intRepr count).data)), some route)

/-- `delete_transporting` (src/operations.py lines 122-154): find the record;
`None` if the route or the product field is missing; parse the stored value
with bare `int()` (a `ValueError` is caught by the `except` and yields
`None`); reject a subtraction that would go negative; otherwise `$set` the
field to `str(new_count)` and return `{Client_id: new_count}` only when
`modified_count > 0`, i.e. only when the written string differs from the
stored one. -/
def delete_transporting (c : Coll) (route : String) (count : Int) (clientId : String) :
    Coll × Option (String × Int) :=
  match findOne c route with
  | none => (c, none)
  | some doc =>
    match dget doc clientId with
    | none => (c, none)
    | some v =>
      match pyInt v with
      | none => (c, none)
      | some existing =>
        let newCount := existing - count
        if newCount < 0 then (c, none)
        else
          let newVal := intRepr newCount
          (updateSet c route clientId newVal,
            if v = newVal then none else some (clientId, newCount))

/-- `update_warehouse` (src/operations.py lines 156-174): no try/except, so a
missing warehouse record raises `TypeError` (subscripting `None`) and a
missing product field raises `KeyError`; otherwise the field is set to
`str(existing - count)` and the two log messages are returned. -/
def update_warehouse (w : Coll) (wid : String) (count : Int) (clientId : String) :
    Except String (Coll × List String) :=
  match findOne w wid with
  | none => .error "TypeError: NoneType object is not subscriptable"
  | some doc =>
    match dget doc clientId with
    | none => .error ("KeyError: " ++ clientId)
    | some existingStr =>
      match pyInt existingStr with
      | none => .error "ValueError"
      | some existing =>
        let newCount := existing - count
        .ok (updateSet w wid clientId (intRepr newCount),
          ["Added " ++ clientId ++ " to " ++ clientId,
           "Updated " ++ clientId ++ " count to " ++ intRepr newCount])

/-- `Receive_warehouse` (src/operations.py lines 176-192): identical to
`update_warehouse` except the new count is `existing + count`. -/
def Receive_warehouse (w : Coll) (wid : String) (count : Int) (clientId : String) :
    Except String (Coll × List String) :=
  match findOne w wid with
  | none => .error "TypeError: NoneType object is not subscriptable"
  | some doc =>
    match dget doc clientId with
    | none => .error ("KeyError: " ++ clientId)
    | some existingStr =>
      match pyInt existingStr with
      | none => .error "ValueError"
      | some existing =>
        let newCount := existing + count
        .ok (updateSet w wid clientId (intRepr newCount),
          ["Added " ++ clientId ++ " to " ++ clientId,
           "Updated " ++ clientId ++ " count to " ++ intRepr newCount])

/-- The dict comprehension `{key: clean_value(value) for key, value in list2}`
evaluated left to right; the first failing `clean_value` raise propagates. -/
def cleanList : List (String × PyVal) → Except String (List (String × Int))
  | [] => .ok []
  | (k, v) :: rest =>
    match clean_value v with
    | .error e => .error e
    | .ok n =>
      match cleanList rest with
      | .error e => .error e
      | .ok r => .ok ((k, n) :: r)

/-- Lookup in the association list built by a Python dict comprehension: the
last binding for a key wins. -/
def lookupLast : List (String × Int) → String → Option Int
  | [], _ => none
  | (k, n) :: rest, key =>
      match lookupLast rest key with
      | some m => some m
      | none => if k = key then some n else none

/-- The `for key in dict1.keys()` loop of `subtract_transport_values`. -/
def subRun (d2 : List (String × Int)) : List (String × PyVal) → Except String (List (String × Int))
  | [] => .ok []
  | (k, v) :: rest =>
    match clean_value v with
    | .error e => .error e
    | .ok n =>
      match subRun d2 rest with
      | .error e => .error e
      | .ok r => .ok ((k, n - (lookupLast d2 k).getD 0) :: r)

/-- `subtract_transport_values` (src/operations.py lines 113-121): clean the
scanned pairs into a dict, then for every key of `dict1` emit
`clean_value(dict1[key]) - dict2.get(key, 0)`. -/
def subtract_transport_values (dict1 list2 : List (String × PyVal)) :
    Except String (List (String × Int)) :=
  match cleanList list2 with
  | .error e => .error e
  | .ok d2 => subRun d2 dict1

/-- One step of `collections.Counter`: count an occurrence of `k`, keeping
first-encounter order. -/
def bump : List (String × Nat) → String → List (String × Nat)
  | [], k => [(k, 1)]
  | (k', c) :: rest, k =>
      if k' = k then (k', c + 1) :: rest else (k', c) :: bump rest k

/-- `Counter(results).items()`: occurrence counts in first-encounter order. -/
def counterItems (l : List String) : List (String × Nat) := l.foldl bump []

/-- `run_multiple_scans` (src/operations.py lines 194-216), with the external
scan device and code resolver folded into the per-attempt outcomes: `none`
stands for a device failure or an unresolved code (the attempt is skipped and
the loop continues), `some p` for a scan that resolved to product `p`. -/
def run_multiple_scans (attempts : List (Option String)) : List (String × Nat) :=
  counterItems (attempts.filterMap id)

/-- Total count over a scan batch. -/
def sumCounts (l : List (String × Nat)) : Nat := (l.map (fun kv => kv.2)).sum

/-- The classification line of `receive_operation` (src/operations.py line
275): if every delta is 0 the status is the string "No material lost" and no
email is sent; otherwise the status is the `None` returned by
`send_email_with_attachment` and the email body names the route. -/
def classify_status (res : List (String × Int)) (tid : String) :
    Option String × Option String :=
  if res.all (fun kv => kv.2 = 0) then (some "No material lost", none)
  else (none,
    some ("some mateiral might have been lost or stolen during " ++
      (tid ++ "  travel")))

/-- The two collections used by the operations. -/
structure DB where
  transporting : Coll
  warehouses : Coll
deriving DecidableEq

/-- Observable outcome of one `receive_operation` call: the final store, the
products for which `delete_transporting` was invoked, the email bodies sent,
and either the returned value (`none` when the function falls off the end and
returns Python `None`) or the uncaught exception. -/
structure ReceiveOutcome where
  db : DB
  confirms : List (String × Int)
  emails : List String
  result : Except String (Option (List (Option String)))

/-- The inner `for product_name, count in inventory` loop of
`receive_operation` crediting the warehouse; an exception from
`Receive_warehouse` aborts the loop, keeping the updates already made. -/
def creditLoop : Coll → String → List (String × Int) → List (Option String) →
    Coll × List (Option String) × Option String
  | w, _, [], msgs => (w, msgs, none)
  | w, wid, (p, c) :: rest, msgs =>
    match Receive_warehouse w wid c p with
    | .error e => (w, msgs, some e)
    | .ok (w', ms) => creditLoop w' wid rest (msgs ++ ms.map some)

/-- `receive_operation` (src/operations.py lines 267-281).  The outer loop
body ends in `return`, so only the first batch entry is ever processed:
`delete_transporting` runs for it, `subtract_transport_values` is applied to
its result (an `AttributeError` on `None.keys()` when the confirmation
returned `None`), the classification line runs, the inner loop credits the
warehouse for every batch entry, and the messages are returned.  An empty
batch falls off the end of the function and returns `None`. -/
def receive_operation (db : DB) (wid addr : String) (attempts : List (Option String)) :
    ReceiveOutcome :=
  let tid := wid ++ "-" ++ addr
  let inventory := run_multiple_scans attempts
  match inventory with
  | [] => ⟨db, [], [], .ok none⟩
  | (p, c) :: _ =>
    let pr := delete_transporting db.transporting tid (c : Int) p
    let db1 : DB := ⟨pr.1, db.warehouses⟩
    match pr.2 with
    | none =>
        ⟨db1, [(p, (c : Int))], [],
          .error "AttributeError: NoneType object has no attribute keys"⟩
    | some rec1 =>
      match subtract_transport_values [(rec1.1, .vint rec1.2)]
          (inventory.map (fun kv => (kv.1, PyVal.vint (kv.2 : Int)))) with
      | .error e => ⟨db1, [(p, (c : Int))], [], .error e⟩
      | .ok res =>
        let cls := classify_status res tid
        let emails := match cls.2 with | some b => [b] | none => []
        match creditLoop db1.warehouses wid
            (inventory.map (fun kv => (kv.1, (kv.2 : Int)))) [cls.1] with
        | (w', _, some e) => ⟨⟨db1.transporting, w'⟩, [(p, (c : Int))], emails, .error e⟩
        | (w', msgs, none) => ⟨⟨db1.transporting, w'⟩, [(p, (c : Int))], emails, .ok (some msgs)⟩

/-! Helper lemmas about decimal printing and parsing. -/

lemma digitChar_isDigit {d : Nat} (h : d < 10) :
    (digitChar d).isDigit = true ∧ digitVal (digitChar d) = d := by
  interval_cases d <;> exact ⟨by decide, by decide⟩

lemma natDigitsAux_digits : ∀ fuel n, ∀ c ∈ natDigitsAux fuel n, c.isDigit = true := by
  intro fuel
  induction fuel with
  | zero => intro n c hc; simp [natDigitsAux] at hc
  | succ fuel ih =>
    intro n c hc
    match n with
    | 0 => simp [natDigitsAux] at hc
    | m + 1 =>
      simp only [natDigitsAux, List.mem_append, List.mem_singleton] at hc
      rcases hc with hc | hc
      · exact ih _ c hc
      · subst hc
        exact (digitChar_isDigit (Nat.mod_lt _ (by norm_num))).1

lemma natDigitsAux_foldl : ∀ fuel n a, n ≤ fuel →
    (natDigitsAux fuel n).foldl (fun a c => a * 10 + digitVal c) a =
      a * 10 ^ (natDigitsAux fuel n).length + n := by
  intro fuel
  induction fuel with
  | zero =>
    intro n a h
    interval_cases n
    simp [natDigitsAux]
  | succ fuel ih =>
    intro n a h
    match n with
    | 0 => simp [natDigitsAux]
    | m + 1 =>
      have hdiv : (m + 1) / 10 ≤ fuel := by
        have := Nat.div_lt_self (Nat.succ_pos m) (by norm_num : 1 < 10)
        omega
      have hmod : (m + 1) % 10 < 10 := Nat.mod_lt _ (by norm_num)
      simp only [natDigitsAux, List.foldl_append, List.foldl_cons, List.foldl_nil,
        List.length_append, List.length_cons, List.length_nil]
      rw [ih _ a hdiv, (digitChar_isDigit hmod).2]
      have hdm := Nat.div_add_mod (m + 1) 10
      set k := (natDigitsAux fuel ((m + 1) / 10)).length with hk
      calc (a * 10 ^ k + (m + 1) / 10) * 10 + (m + 1) % 10
          = a * (10 ^ k * 10) + (10 * ((m + 1) / 10) + (m + 1) % 10) := by ring
        _ = a * 10 ^ (k + (0 + 1)) + (m + 1) := by rw [hdm, Nat.zero_add, pow_succ]

lemma natDigitsAux_ne_nil : ∀ fuel n, 0 < n → n ≤ fuel → natDigitsAux fuel n ≠ [] := by
  intro fuel n h1 h2
  match fuel, n with
  | 0, n => omega
  | fuel + 1, 0 => omega
  | fuel + 1, m + 1 => simp [natDigitsAux]

lemma natDigitsChars_digits (n : Nat) : ∀ c ∈ natDigitsChars n, c.isDigit = true := by
  intro c hc
  unfold natDigitsChars at hc
  split at hc
  · simp at hc; subst hc; decide
  · exact natDigitsAux_digits n n c hc

lemma natDigitsChars_ne_nil (n : Nat) : natDigitsChars n ≠ [] := by
  unfold natDigitsChars
  split
  · simp
  · exact natDigitsAux_ne_nil n n (by omega) le_rfl

lemma parse_natDigitsChars (n : Nat) : parseDigitsList (natDigitsChars n) = some n := by
  unfold parseDigitsList
  rw [if_neg (natDigitsChars_ne_nil n)]
  rw [if_pos (List.all_eq_true.mpr (fun c hc => natDigitsChars_digits n c hc))]
  unfold natDigitsChars
  split
  · simp_all [digitVal]
  · rw [natDigitsAux_foldl n n 0 le_rfl]
    simp

lemma isDigit_ne_dash {c : Char} (h : c.isDigit = true) : ¬(c = '-') := by
  rintro rfl; exact absurd h (by decide)

lemma isDigit_ne_plus {c : Char} (h : c.isDigit = true) : ¬(c = '+') := by
  rintro rfl; exact absurd h (by decide)

lemma isDigit_ne_colon {c : Char} (h : c.isDigit = true) : ¬(c = ':') := by
  rintro rfl; exact absurd h (by decide)

lemma pyIntChars_natDigitsChars (n : Nat) :
    pyIntChars (natDigitsChars n) = some (n : Int) := by
  obtain ⟨c, cs, hcons⟩ := List.exists_cons_of_ne_nil (natDigitsChars_ne_nil n)
  have hd : c.isDigit = true := by
    apply natDigitsChars_digits n
    rw [hcons]; exact List.mem_cons_self c cs
  rw [hcons]
  simp only [pyIntChars]
  rw [if_neg (isDigit_ne_dash hd), if_neg (isDigit_ne_plus hd)]
  rw [← hcons, parse_natDigitsChars]
  rfl

lemma intRepr_nonneg {n : Int} (h : 0 ≤ n) :
    intRepr n = String.mk (natDigitsChars n.natAbs) := by
  unfold intRepr
  rw [if_neg (by omega)]

lemma pyInt_intRepr_nonneg {n : Int} (h : 0 ≤ n) : pyInt (intRepr n) = some n := by
  rw [intRepr_nonneg h]
  show pyIntChars (natDigitsChars n.natAbs) = some n
  rw [pyIntChars_natDigitsChars]
  rw [Int.natAbs_of_nonneg h]

lemma strStartsWithColon_mk_natDigitsChars (m : Nat) :
    strStartsWithColon (String.mk (natDigitsChars m)) = false := by
  obtain ⟨c, cs, hcons⟩ := List.exists_cons_of_ne_nil (natDigitsChars_ne_nil m)
  have hd : c.isDigit = true := by
    apply natDigitsChars_digits m
    rw [hcons]; exact List.mem_cons_self c cs
  rw [hcons]
  show strStartsWithColon (String.mk (c :: cs)) = false
  unfold strStartsWithColon
  simp [isDigit_ne_colon hd]

lemma strStartsWithColon_intRepr {n : Int} (h : 0 ≤ n) :
    strStartsWithColon (intRepr n) = false := by
  rw [intRepr_nonneg h]
  exact strStartsWithColon_mk_natDigitsChars n.natAbs

lemma dropWhile_colon_digits {l : List Char} (h : ∀ c ∈ l, c.isDigit = true) :
    l.dropWhile (fun c => decide (c = ':')) = l := by
  cases l with
  | nil => rfl
  | cons c cs =>
    rw [List.dropWhile_cons]
    rw [if_neg]
    simp only [decide_eq_true_eq]
    exact isDigit_ne_colon (h c (List.mem_cons_self c cs))

lemma clean_value_colon_nat (q : Nat) :
    clean_value (.vstr (String.mk (':' :: natDigitsChars q))) = .ok (q : Int) := by
  have hstrip : stripColons (String.mk (':' :: natDigitsChars q)) =
      String.mk (natDigitsChars q) := by
    unfold stripColons
    show String.mk ((':' :: natDigitsChars q).dropWhile (fun c => decide (c = ':'))) = _
    rw [List.dropWhile_cons, if_pos (by simp)]
    rw [dropWhile_colon_digits (natDigitsChars_digits q)]
  have hpy : pyInt (String.mk (natDigitsChars q)) = some (q : Int) :=
    pyIntChars_natDigitsChars q
  have hcol : strStartsWithColon (String.mk (':' :: natDigitsChars q)) = true := rfl
  simp only [clean_value]
  rw [if_pos hcol, hstrip, hpy]

lemma clean_value_bare_nat (q : Nat) :
    clean_value (.vstr (String.mk (natDigitsChars q))) = .ok (q : Int) := by
  have hpy : pyInt (String.mk (natDigitsChars q)) = some (q : Int) :=
    pyIntChars_natDigitsChars q
  simp only [clean_value]
  rw [if_neg (by rw [strStartsWithColon_mk_natDigitsChars]; simp), hpy]

/-! Helper lemmas about the document store. -/

lemma dget_dset_self (d : Doc) (f v : String) : dget (dset d f v) f = some v := by
  induction d with
  | nil => simp [dset, dget]
  | cons kv rest ih =>
    obtain ⟨k, w⟩ := kv
    by_cases hk : k = f
    · subst hk
      simp [dset, dget]
    · simp only [dset, if_neg hk, dget]
      exact ih

lemma dget_dset_ne (d : Doc) {f g : String} (h : g ≠ f) (v : String) :
    dget (dset d f v) g = dget d g := by
  induction d with
  | nil =>
    simp only [dset, dget]
    rw [if_neg (fun hh => h (Eq.symm hh))]
  | cons kv rest ih =>
    obtain ⟨k, w⟩ := kv
    by_cases hk : k = f
    · subst hk
      simp only [dset, if_pos rfl, dget]
      rw [if_neg (fun hh : k = g => h (hh.symm.trans rfl))]
      rw [if_neg (fun hh : k = g => h hh.symm)]
    · simp only [dset, if_neg hk, dget]
      by_cases hkg : k = g
      · rw [if_pos hkg, if_pos hkg]
      · rw [if_neg hkg, if_neg hkg]
        exact ih

lemma findOne_updateSet {c : Coll} {id : String} {d : Doc} (h : findOne c id = some d)
    {f : String} (hf : f ≠ "_id") (v : String) :
    findOne (updateSet c id f v) id = some (dset d f v) := by
  induction c with
  | nil => simp [findOne] at h
  | cons d0 rest ih =>
    by_cases h0 : dget d0 "_id" = some id
    · have hd : d0 = d := by
        simp only [findOne, if_pos h0, Option.some.injEq] at h
        exact h
      subst hd
      simp only [updateSet, if_pos h0, findOne]
      rw [if_pos (by rw [dget_dset_ne _ (fun hh => hf hh.symm) v]; exact h0)]
    · simp only [findOne, if_neg h0] at h
      simp only [updateSet, if_neg h0, findOne, if_neg h0]
      exact ih h

lemma fieldVal_updateSet {c : Coll} {id : String} {d : Doc} (h : findOne c id = some d)
    {f : String} (hf : f ≠ "_id") (v : String) :
    fieldVal (updateSet c id f v) id f = some v := by
  unfold fieldVal
  rw [findOne_updateSet h hf v]
  simp [dget_dset_self]

lemma findOne_append_single {c : Coll} {id : String} (h : findOne c id = none) (d : Doc) :
    findOne (c ++ [d]) id = if dget d "_id" = some id then some d else none := by
  induction c with
  | nil => simp [findOne]
  | cons d0 rest ih =>
    by_cases h0 : dget d0 "_id" = some id
    · simp [findOne, if_pos h0] at h
    · simp only [findOne, if_neg h0] at h
      simp only [List.cons_append, findOne, if_neg h0]
      exact ih h

lemma fieldVal_upsertSet (c : Coll) (id : String) {f : String} (hf : f ≠ "_id")
    (v : String) : fieldVal (upsertSet c id f v) id f = some v := by
  unfold upsertSet
  cases hfind : findOne c id with
  | some d => exact fieldVal_updateSet hfind hf v
  | none =>
    unfold fieldVal
    have hid : dget [("_id", id), (f, v)] "_id" = some id := by simp [dget]
    rw [findOne_append_single hfind, if_pos hid]
    show dget [("_id", id), (f, v)] f = some v
    simp only [dget]
    rw [if_neg (fun hh => hf (Eq.symm hh))]
    simp

/-! Helper lemmas about the scan counter. -/

lemma sumCounts_bump (acc : List (String × Nat)) (k : String) :
    sumCounts (bump acc k) = sumCounts acc + 1 := by
  induction acc with
  | nil => rfl
  | cons kv rest ih =>
    obtain ⟨k0, c⟩ := kv
    by_cases hk : k0 = k
    · simp only [bump, if_pos hk, sumCounts, List.map_cons, List.sum_cons]
      omega
    · simp only [bump, if_neg hk]
      simp only [sumCounts, List.map_cons, List.sum_cons] at ih ⊢
      omega

lemma sumCounts_foldl (l : List String) (acc : List (String × Nat)) :
    sumCounts (l.foldl bump acc) = sumCounts acc + l.length := by
  induction l generalizing acc with
  | nil => simp
  | cons x xs ih =>
    simp only [List.foldl_cons, List.length_cons]
    rw [ih (bump acc x), sumCounts_bump]
    omega

lemma bump_pos {acc : List (String × Nat)} (h : ∀ kv ∈ acc, 0 < kv.2) (k : String) :
    ∀ kv ∈ bump acc k, 0 < kv.2 := by
  induction acc with
  | nil =>
    intro kv hkv
    simp only [bump, List.mem_singleton] at hkv
    subst hkv; omega
  | cons kv0 rest ih =>
    obtain ⟨k0, c⟩ := kv0
    intro kv hkv
    by_cases hk : k0 = k
    · simp only [bump, if_pos hk, List.mem_cons] at hkv
      rcases hkv with hkv | hkv
      · subst hkv; omega
      · exact h kv (List.mem_cons_of_mem _ hkv)
    · simp only [bump, if_neg hk, List.mem_cons] at hkv
      rcases hkv with hkv | hkv
      · subst hkv
        exact h _ (List.mem_cons_self _ _)
      · exact ih (fun kv h2 => h kv (List.mem_cons_of_mem _ h2)) kv hkv

lemma foldl_bump_pos (l : List String) (acc : List (String × Nat))
    (h : ∀ kv ∈ acc, 0 < kv.2) : ∀ kv ∈ l.foldl bump acc, 0 < kv.2 := by
  induction l generalizing acc with
  | nil => exact h
  | cons x xs ih =>
    simp only [List.foldl_cons]
    exact ih (bump acc x) (bump_pos h x)

lemma length_filterMap_id_le (l : List (Option String)) :
    (l.filterMap id).length ≤ l.length := by
  induction l with
  | nil => simp
  | cons a rest ih =>
    cases a <;> simp [List.filterMap_cons] <;> omega

lemma length_filterMap_id_eq_iff (l : List (Option String)) :
    (l.filterMap id).length = l.length ↔ ∀ a ∈ l, a.isSome := by
  induction l with
  | nil => simp
  | cons a rest ih =>
    cases a with
    | none =>
      simp only [List.filterMap_cons, id, List.length_cons]
      constructor
      · intro h
        have := length_filterMap_id_le rest
        omega
      · intro h
        have := h none (List.mem_cons_self _ _)
        simp at this
    | some x =>
      simp only [List.filterMap_cons, id, List.length_cons]
      constructor
      · intro h a ha
        rcases List.mem_cons.mp ha with rfl | ha
        · rfl
        · exact (ih.mp (by omega)) a ha
      · intro h
        have : (rest.filterMap id).length = rest.length :=
          ih.mpr (fun a ha => h a (List.mem_cons_of_mem _ ha))
        omega

/-- The cleaned value of a `PyVal`, defaulting to 0 when `clean_value` would
raise (used only to state results under a no-raise hypothesis). -/
def cleanOr0 (v : PyVal) : Int :=
  match clean_value v with
  | .ok n => n
  | .error _ => 0

lemma subRun_ok (d2 : List (String × Int)) (d1 : List (String × PyVal))
    (h1 : ∀ kv ∈ d1, ∃ n, clean_value kv.2 = Except.ok n) :
    subRun d2 d1 =
      .ok (d1.map (fun kv => (kv.1, cleanOr0 kv.2 - (lookupLast d2 kv.1).getD 0))) := by
  induction d1 with
  | nil => rfl
  | cons kv rest ih =>
    obtain ⟨k, v⟩ := kv
    obtain ⟨n, hn⟩ := h1 (k, v) (List.mem_cons_self _ _)
    have hco : cleanOr0 v = n := by unfold cleanOr0; rw [hn]
    have hrest := ih (fun kv h => h1 kv (List.mem_cons_of_mem _ h))
    simp only [subRun, hn, hrest, List.map_cons, hco]

/-- C1: the claim as stated is false: with the stored string "5" (so
`existingQuantity = 5`) and `count = 0`, the difference is non-negative, yet
`delete_transporting` returns `None` because the written string equals the
stored one and Mongo reports `modified_count = 0`. -/
theorem c1_counterexample :
    (delete_transporting [[("_id", "r"), ("p", "5")]] "r" 0 "p").2 = none ∧
    (0 : Int) ≤ 5 - 0 := by
  exact ⟨by decide, by decide⟩

/-- C1 (amended): when the transport record exists and the stored string for
the product parses as the integer `existing`, `delete_transporting` succeeds
iff `existing - count` is non-negative AND the decimal string written back
differs from the stored string (Mongo `modified_count > 0`); on success the
stored string becomes `str(existing - count)`, and whenever `None` is
returned the stored string is unchanged. -/
theorem c1_amended (c : Coll) (route pid : String) (cnt : Int) (doc : Doc) (v : String)
    (existing : Int) (hdoc : findOne c route = some doc) (hv : dget doc pid = some v)
    (hparse : pyInt v = some existing) (hpid : pid ≠ "_id") (_hcnt : 0 ≤ cnt) :
    ((delete_transporting c route cnt pid).2.isSome = true ↔
        0 ≤ existing - cnt ∧ intRepr (existing - cnt) ≠ v) ∧
    ((delete_transporting c route cnt pid).2.isSome = true →
        fieldVal (delete_transporting c route cnt pid).1 route pid =
          some (intRepr (existing - cnt))) ∧
    ((delete_transporting c route cnt pid).2 = none →
        fieldVal (delete_transporting c route cnt pid).1 route pid = some v) := by
  have hfv : fieldVal c route pid = some v := by
    unfold fieldVal
    rw [hdoc]
    exact hv
  by_cases hlt : existing - cnt < 0
  · have hred : delete_transporting c route cnt pid = (c, none) := by
      simp only [delete_transporting, hdoc, hv, hparse, if_pos hlt]
    rw [hred]
    refine ⟨?_, ?_, ?_⟩
    · simp only [Option.isSome_none]
      constructor
      · intro h; exact absurd h (by simp)
      · intro h; omega
    · intro h; exact absurd h (by simp)
    · intro _; exact hfv
  · by_cases heq : v = intRepr (existing - cnt)
    · have hred : delete_transporting c route cnt pid =
          (updateSet c route pid (intRepr (existing - cnt)), none) := by
        simp only [delete_transporting, hdoc, hv, hparse, if_neg hlt, if_pos heq]
      rw [hred]
      refine ⟨?_, ?_, ?_⟩
      · simp only [Option.isSome_none]
        constructor
        · intro h; exact absurd h (by simp)
        · intro h; exact absurd heq.symm h.2
      · intro h; exact absurd h (by simp)
      · intro _
        rw [fieldVal_updateSet hdoc hpid _]
        rw [← heq]
    · have hred : delete_transporting c route cnt pid =
          (updateSet c route pid (intRepr (existing - cnt)),
            some (pid, existing - cnt)) := by
        simp only [delete_transporting, hdoc, hv, hparse, if_neg hlt, if_neg heq]
      rw [hred]
      refine ⟨?_, ?_, ?_⟩
      · simp only [Option.isSome_some, true_iff]
        exact ⟨by omega, fun hh => heq hh.symm⟩
      · intro _
        exact fieldVal_updateSet hdoc hpid _
      · intro h; exact absurd h (by simp)

/-- C1 (amended) witness: stored "7", count 3: succeeds and the stored string
becomes "4". -/
theorem c1_amended_witness :
    (delete_transporting [[("_id", "r"), ("p", "7")]] "r" 3 "p").2.isSome = true ∧
    fieldVal (delete_transporting [[("_id", "r"), ("p", "7")]] "r" 3 "p").1 "r" "p" =
      some (intRepr (7 - 3)) := by
  have h := c1_amended [[("_id", "r"), ("p", "7")]] "r" "p" 3 [("_id", "r"), ("p", "7")]
    "7" 7 (by decide) (by decide) (by decide) (by decide) (by decide)
  have hs : (delete_transporting [[("_id", "r"), ("p", "7")]] "r" 3 "p").2.isSome = true :=
    h.1.mpr (by decide)
  exact ⟨hs, h.2.1 hs⟩

/-- C2: Scenario A from the spec is a code bug.  With transport record
`{_id: "W1-Addr", productA: ":5"}` and a receive batch of 5 scans of
productA, `delete_transporting` parses the stored ":5" with bare `int()`,
which raises `ValueError`; the caught exception turns the confirmation into
`None`, and `subtract_transport_values(None, inventory)` then raises an
uncaught `AttributeError`.  No delta is computed, no email decision is made,
the warehouse is never credited, and the transport record keeps ":5". -/
theorem c2_code_bug :
    (receive_operation
        ⟨[[("_id", "W1-Addr"), ("productA", ":5")]],
          [[("_id", "W1"), ("productA", "0")]]⟩
        "W1" "Addr" (List.replicate 5 (some "productA"))).result =
      .error "AttributeError: NoneType object has no attribute keys" ∧
    (receive_operation
        ⟨[[("_id", "W1-Addr"), ("productA", ":5")]],
          [[("_id", "W1"), ("productA", "0")]]⟩
        "W1" "Addr" (List.replicate 5 (some "productA"))).emails = [] ∧
    fieldVal (receive_operation
        ⟨[[("_id", "W1-Addr"), ("productA", ":5")]],
          [[("_id", "W1"), ("productA", "0")]]⟩
        "W1" "Addr" (List.replicate 5 (some "productA"))).db.warehouses
      "W1" "productA" = some "0" := by
  exact ⟨by rfl, by rfl, by rfl⟩

/-- C3: the classification step of `receive_operation` yields the status
"No material lost" with no notification iff every reconciliation delta is
exactly 0; when some delta is nonzero, no such status is produced and the
email body names the route key. -/
theorem c3_classification (res : List (String × Int)) (tid : String) :
    (((classify_status res tid).1 = some "No material lost" ∧
        (classify_status res tid).2 = none) ↔ ∀ kv ∈ res, kv.2 = 0) ∧
    ((∃ kv ∈ res, kv.2 ≠ 0) →
      (classify_status res tid).1 = none ∧
      ∃ a b, (classify_status res tid).2 = some (a ++ (tid ++ b))) := by
  by_cases h : ∀ kv ∈ res, kv.2 = 0
  · have hall : res.all (fun kv => kv.2 = 0) = true := by
      rw [List.all_eq_true]
      intro kv hkv
      simp [h kv hkv]
    have hred : classify_status res tid = (some "No material lost", none) := by
      unfold classify_status
      rw [if_pos hall]
    rw [hred]
    refine ⟨by simpa using h, ?_⟩
    rintro ⟨kv, hkv, hne⟩
    exact absurd (h kv hkv) hne
  · have hall : ¬(res.all (fun kv => kv.2 = 0) = true) := by
      rw [List.all_eq_true]
      intro hc
      exact h (fun kv hkv => by simpa using hc kv hkv)
    have hred : classify_status res tid =
        (none, some ("some mateiral might have been lost or stolen during " ++
          (tid ++ "  travel"))) := by
      unfold classify_status
      rw [if_neg hall]
    rw [hred]
    constructor
    · simp only [iff_def]
      constructor
      · rintro ⟨h1, _⟩
        exact absurd h1 (by simp)
      · intro hz
        exact absurd hz h
    · intro _
      exact ⟨rfl, "some mateiral might have been lost or stolen during ", "  travel", rfl⟩

/-- C3 witness: a single nonzero delta yields no "no loss" status and an
email body containing the route key "r". -/
theorem c3_witness :
    (classify_status [("p", 1)] "r").1 = none ∧
    ∃ a b, (classify_status [("p", 1)] "r").2 = some (a ++ ("r" ++ b)) :=
  (c3_classification [("p", 1)] "r").2 ⟨("p", 1), by decide, by decide⟩

/-- C4: when every value cleans without raising, `subtract_transport_values`
returns the mapping with exactly the keys of `dict1`, in order, each value
being the cleaned recorded value minus the cleaned scanned value for that
key (defaulting to 0 when the key is absent from the scanned batch); keys
only in `list2` do not appear. -/
theorem c4_reconcile (dict1 list2 : List (String × PyVal)) (c2 : List (String × Int))
    (h2 : cleanList list2 = .ok c2)
    (h1 : ∀ kv ∈ dict1, ∃ n, clean_value kv.2 = Except.ok n) :
    subtract_transport_values dict1 list2 =
      .ok (dict1.map (fun kv => (kv.1, cleanOr0 kv.2 - (lookupLast c2 kv.1).getD 0))) ∧
    (dict1.map (fun kv => (kv.1, cleanOr0 kv.2 - (lookupLast c2 kv.1).getD 0))).map
        Prod.fst = dict1.map Prod.fst := by
  constructor
  · unfold subtract_transport_values
    rw [h2]
    exact subRun_ok c2 dict1 h1
  · rw [List.map_map]
    rfl

/-- C4 witness: recorded `{a: ":5"}` against scans `{a: 5, b: 1}` gives
`{a: 0}`; the extra scanned key `b` is dropped. -/
theorem c4_witness :
    subtract_transport_values [("a", PyVal.vstr ":5")]
      [("a", PyVal.vint 5), ("b", PyVal.vint 1)] = .ok [("a", 0)] := by
  have h := (c4_reconcile [("a", PyVal.vstr ":5")]
      [("a", PyVal.vint 5), ("b", PyVal.vint 1)] [("a", 5), ("b", 1)] (by rfl)
      (fun kv hkv => by
        simp only [List.mem_singleton] at hkv
        subst hkv
        exact ⟨5, by rfl⟩)).1
  rw [h]
  rfl

/-- C5: the claim as stated is false: `Receive_warehouse` on an absent
warehouse record raises an uncaught `TypeError` (subscripting the `None`
returned by `find_one`) instead of surfacing a rejection. -/
theorem c5_counterexample :
    Receive_warehouse [] "W1" 5 "productA" =
      .error "TypeError: NoneType object is not subscriptable" := by rfl

/-- C5 (amended): `delete_transporting` does reject missing-route and
missing-field cases with `None` and no exception, but `update_warehouse` and
`Receive_warehouse` raise uncaught exceptions in those cases (`TypeError` on
a missing warehouse record, `KeyError` on a missing product field), which
propagate to the orchestrator. -/
theorem c5_amended (t w : Coll) (route wid pid : String) (cnt : Int) :
    (findOne t route = none → delete_transporting t route cnt pid = (t, none)) ∧
    (∀ doc, findOne t route = some doc → dget doc pid = none →
        delete_transporting t route cnt pid = (t, none)) ∧
    (findOne w wid = none →
        Receive_warehouse w wid cnt pid =
            .error "TypeError: NoneType object is not subscriptable" ∧
        update_warehouse w wid cnt pid =
            .error "TypeError: NoneType object is not subscriptable") ∧
    (∀ doc, findOne w wid = some doc → dget doc pid = none →
        Receive_warehouse w wid cnt pid = .error ("KeyError: " ++ pid) ∧
        update_warehouse w wid cnt pid = .error ("KeyError: " ++ pid)) := by
  refine ⟨?_, ?_, ?_, ?_⟩
  · intro h
    simp only [delete_transporting, h]
  · intro doc hdoc hget
    simp only [delete_transporting, hdoc, hget]
  · intro h
    constructor
    · simp only [Receive_warehouse, h]
    · simp only [update_warehouse, h]
  · intro doc hdoc hget
    constructor
    · simp only [Receive_warehouse, hdoc, hget]
    · simp only [update_warehouse, hdoc, hget]

/-- C5 (amended) witness: a concrete missing warehouse record raises. -/
theorem c5_amended_witness :
    Receive_warehouse [] "W2" 4 "productB" =
      .error "TypeError: NoneType object is not subscriptable" :=
  ((c5_amended [] [] "r" "W2" "productB" 4).2.2.1 rfl).1

/-- C6: the claim as stated is false: `clean_value` on the marker character
alone strips the colon, leaving the empty string, and `int("")` raises
`ValueError`; it does not return 0. -/
theorem c6_counterexample :
    clean_value (PyVal.vstr ":") = .error "ValueError" ∧
    clean_value (PyVal.vstr ":") ≠ .ok 0 := by
  have h1 : clean_value (PyVal.vstr ":") = .error "ValueError" := by rfl
  refine ⟨h1, ?_⟩
  rw [h1]
  intro h
  exact Except.noConfusion h

/-- C6 (amended): `clean_value` returns 0 for an absent field (`None`) but
raises `ValueError` for the marker alone; on the stored shapes this system
writes — the marker followed by digits, or bare digits — it parses to the
encoded integer without raising. -/
theorem c6_amended :
    clean_value PyVal.vnone = .ok 0 ∧
    clean_value (PyVal.vstr ":") = .error "ValueError" ∧
    (∀ q : Nat, clean_value (PyVal.vstr (String.mk (':' :: natDigitsChars q))) =
      .ok (q : Int)) ∧
    (∀ q : Nat, clean_value (PyVal.vstr (String.mk (natDigitsChars q))) =
      .ok (q : Int)) :=
  ⟨rfl, rfl, clean_value_colon_nat, clean_value_bare_nat⟩

/-- C7: over one batch of scan attempts (each attempt either resolving to a
product or being skipped as a device failure / unknown code), the total
count in the returned batch is at most the number of attempts, with equality
iff every attempt resolves, and every entry of the batch has a positive
count (a product with zero resolved scans is absent). -/
theorem c7_scan_batch (attempts : List (Option String)) :
    sumCounts (run_multiple_scans attempts) ≤ attempts.length ∧
    (sumCounts (run_multiple_scans attempts) = attempts.length ↔
      ∀ a ∈ attempts, a.isSome = true) ∧
    (∀ kv ∈ run_multiple_scans attempts, 0 < kv.2) := by
  have hsum : sumCounts (run_multiple_scans attempts) =
      (attempts.filterMap id).length := by
    unfold run_multiple_scans counterItems
    rw [sumCounts_foldl]
    simp [sumCounts]
  refine ⟨?_, ?_, ?_⟩
  · rw [hsum]
    exact length_filterMap_id_le attempts
  · rw [hsum]
    exact length_filterMap_id_eq_iff attempts
  · exact foldl_bump_pos (attempts.filterMap id) [] (by simp)

/-- C7 witness: three attempts with one failure give a total of 2 ≤ 3. -/
theorem c7_witness :
    sumCounts (run_multiple_scans [some "a", none, some "a"]) ≤ 3 :=
  (c7_scan_batch [some "a", none, some "a"]).1

/-- C8: when the scan batch has two or more entries, `receive_operation`
invokes `delete_transporting` only for the first product of the batch: the
remaining products are never confirmed against the transport record. -/
theorem c8_first_only (db : DB) (wid addr : String) (attempts : List (Option String))
    (kv1 kv2 : String × Nat) (rest : List (String × Nat))
    (hinv : run_multiple_scans attempts = kv1 :: kv2 :: rest) :
    (receive_operation db wid addr attempts).confirms = [(kv1.1, (kv1.2 : Int))] := by
  obtain ⟨p, c⟩ := kv1
  simp only [receive_operation, hinv]
  split
  · rfl
  · split
    · rfl
    · split
      · rfl
      · rfl

/-- C8 witness: a batch of two distinct products confirms only the first. -/
theorem c8_witness :
    (receive_operation ⟨[], []⟩ "W" "A" [some "a", some "b"]).confirms = [("a", 1)] :=
  c8_first_only ⟨[], []⟩ "W" "A" [some "a", some "b"] ("a", 1) ("b", 1) [] (by decide)

/-- C9: `clean_value` round-trips the storage encoding: for every natural
number q, cleaning the stored form ":" followed by the decimal digits of q
yields exactly q. -/
theorem c9_round_trip (q : Nat) :
    clean_value (PyVal.vstr (String.mk (':' :: natDigitsChars q))) = .ok (q : Int) :=
  clean_value_colon_nat q

/-- C10: `add_transporting` always stores the product field as ":" followed
by the decimal count (so it starts with the marker), while a successful
`delete_transporting` writes back the bare decimal string of the new
quantity, which does not start with the marker. -/
theorem c10_marker_asymmetry (c : Coll) (route pid : String) (cnt : Int)
    (hpid : pid ≠ "_id") :
    (fieldVal (add_transporting c route cnt pid).1 route pid =
        some (String.mk (':' :: (intRepr cnt).data)) ∧
      strStartsWithColon (String.mk (':' :: (intRepr cnt).data)) = true) ∧
    (∀ p n, (delete_transporting c route cnt pid).2 = some (p, n) →
      fieldVal (delete_transporting c route cnt pid).1 route pid = some (intRepr n) ∧
      strStartsWithColon (intRepr n) = false) := by
  constructor
  · exact ⟨fieldVal_upsertSet c route hpid _, rfl⟩
  · intro p n hsome
    cases hdoc : findOne c route with
    | none =>
      simp only [delete_transporting, hdoc] at hsome
      exact absurd hsome (by simp)
    | some doc =>
      cases hv : dget doc pid with
      | none =>
        simp only [delete_transporting, hdoc, hv] at hsome
        exact absurd hsome (by simp)
      | some v =>
        cases hp : pyInt v with
        | none =>
          simp only [delete_transporting, hdoc, hv, hp] at hsome
          exact absurd hsome (by simp)
        | some existing =>
          by_cases hlt : existing - cnt < 0
          · simp only [delete_transporting, hdoc, hv, hp, if_pos hlt] at hsome
            exact absurd hsome (by simp)
          · by_cases heq : v = intRepr (existing - cnt)
            · simp only [delete_transporting, hdoc, hv, hp, if_neg hlt,
                if_pos heq] at hsome
              exact absurd hsome (by simp)
            · simp only [delete_transporting, hdoc, hv, hp, if_neg hlt, if_neg heq,
                Option.some.injEq, Prod.mk.injEq] at hsome
              obtain ⟨hp1, hn⟩ := hsome
              subst hp1
              subst hn
              constructor
              · have hred : delete_transporting c route cnt pid =
                    (updateSet c route pid (intRepr (existing - cnt)),
                      some (pid, existing - cnt)) := by
                  simp only [delete_transporting, hdoc, hv, hp, if_neg hlt, if_neg heq]
                rw [hred]
                exact fieldVal_updateSet hdoc hpid _
              · exact strStartsWithColon_intRepr (by omega)

/-- C10 witness: shipping writes ":5" for count 5; a concrete successful
confirmation leaves a bare decimal with no marker. -/
theorem c10_witness :
    fieldVal (add_transporting [] "r" 5 "p").1 "r" "p" =
      some (String.mk (':' :: (intRepr 5).data)) ∧
    strStartsWithColon (intRepr 2) = false := by
  refine ⟨(c10_marker_asymmetry [] "r" "p" 5 (by decide)).1.1, ?_⟩
  exact ((c10_marker_asymmetry [[("_id", "r"), ("p", "5")]] "r" "p" 3
    (by decide)).2 "p" 2 (by decide)).2
